import Mathlib

/-!
Shallow embedding of the hackers-api story fetcher (`main.go`).

The program is a Hacker News proxy: a TTL cache keyed by story type
("top" / "show" / "ask") in front of an upstream fan-out fetch
(one id-listing call, then one item call per retained id), with a
type-specific title filter and a fixed transformation into the output
`Story` shape.

Modelling decisions:
* Go `time.Time` values are modelled as `Int` nanoseconds since the
  epoch (`time.Duration` is nanoseconds in Go, so
  `cacheExpiration = 5 * time.Minute` is `300000000000`); `time.Since x`
  at instant `now` is `now - x`.
* The two Go maps of `StoriesCache` are association lists; Go map
  assignment `m[k] = v` is `updAL` (replace the binding if present,
  otherwise append), Go map lookup `v, ok := m[k]` is `lookupAL`.
  The `sync.RWMutex` field is not modelled: in this sequential
  embedding every operation is atomic by construction.
* The network is an oracle `Upstream`: `listing` gives the decoded
  result of `http.Get` on `https://hacker-news.firebaseio.com/v0/<endpoint>.json`
  (transport and JSON-decode failures are collapsed into the `Except`
  error, matching the Go code which returns either error verbatim), and
  `item` gives the decoded result of `fetchItem` for one id.
* `fetchStories` is instrumented with the number of upstream listing
  calls and item calls it performs, so that "performs zero upstream
  requests" is a provable statement.
* A Go `nil` slice and an empty slice are both `[]`.
-/

/-- `Story` from `main.go`: the normalized output record. Field names
follow the Go JSON tags; `CreatedAt` holds the unix-seconds value
passed to `time.Unix(item.Time, 0)`. -/
structure Story where
  id : Int
  title : String
  url : String
  points : Int
  submittedBy : String
  createdAt : Int
  commentsURL : String
  type : String
deriving DecidableEq, Repr

/-- `HNItem` from `main.go`: the raw upstream item. The Go field `By`
keeps its capital letter here because `by` is reserved in Lean. -/
structure HNItem where
  id : Int
  type : String
  By : String
  time : Int
  title : String
  url : String
  score : Int
  descendants : Int
deriving DecidableEq, Repr

/-- `StoriesCache` from `main.go` (without the mutex, see the header
comment): per story type, the cached list and its last-update time. -/
structure StoriesCache where
  stories : List (String × List Story)
  lastUpdate : List (String × Int)
deriving DecidableEq, Repr

/-- `cacheExpiration = 5 * time.Minute`, in nanoseconds. -/
def cacheExpiration : Int := 300000000000

/-- `maxStories = 30`. -/
def maxStories : Nat := 30

/-- Go map lookup `v, ok := m[k]` on the association-list model. -/
def lookupAL {α : Type} : List (String × α) → String → Option α
  | [], _ => none
  | (k', v) :: rest, k => if k' = k then some v else lookupAL rest k

/-- Go map assignment `m[k] = v` on the association-list model:
replace the binding for `k` if present, otherwise append it. -/
def updAL {α : Type} : List (String × α) → String → α → List (String × α)
  | [], k, v => [(k, v)]
  | (k', v') :: rest, k, v =>
    if k' = k then (k, v) :: rest else (k', v') :: updAL rest k v

/-- `StoriesCache.get` from `main.go`: returns `(nil, false)` when the
key has no last-update stamp, `(nil, false)` when the entry is older
than `cacheExpiration` (strictly), and otherwise the stored list with
its presence bit. `now` stands for the instant `time.Since` reads. -/
def cacheGet (now : Int) (sc : StoriesCache) (storyType : String) :
    List Story × Bool :=
  match lookupAL sc.lastUpdate storyType with
  | none => ([], false)
  | some lastUpdate =>
    if now - lastUpdate > cacheExpiration then ([], false)
    else
      match lookupAL sc.stories storyType with
      | none => ([], false)
      | some stories => (stories, true)

/-- `StoriesCache.set` from `main.go`: wholesale replacement of both the
story list and the last-update stamp (`time.Now()` is `now`). -/
def cacheSet (now : Int) (sc : StoriesCache) (storyType : String)
    (stories : List Story) : StoriesCache :=
  { stories := updAL sc.stories storyType stories,
    lastUpdate := updAL sc.lastUpdate storyType now }

/-- The upstream network oracle: `listing ep` is the decoded body of
`GET /v0/<ep>.json`, `item i` is the decoded body of
`GET /v0/item/<i>.json` (the Go `fetchItem`); either transport or
decode failure is the `Except.error` case carrying `err.Error()`. -/
structure Upstream where
  listing : String → Except String (List Int)
  item : Int → Except String HNItem

/-- The `switch storyType` of `fetchStories`: the upstream endpoint for
a valid story type, `none` for the `default` branch. -/
def endpointFor (storyType : String) : Option String :=
  if storyType = "top" then some "topstories"
  else if storyType = "show" then some "showstories"
  else if storyType = "ask" then some "askstories"
  else none

/-- The Story record built at lines 143-152 of `main.go` from a fetched
item: every field is copied from the item except `type`, which is the
requested story type, and `commentsURL`, which is derived from the id. -/
def mkStory (storyType : String) (item : HNItem) : Story :=
  { id := item.id
    title := item.title
    url := item.url
    points := item.score
    submittedBy := item.By
    createdAt := item.time
    commentsURL := "https://news.ycombinator.com/item?id=" ++ toString item.id
    type := storyType }

/-- `strings.HasPrefix s pre` from the Go standard library, used by the
title guards: `pre` is a prefix of `s` (modelled on the character
lists, which for valid UTF-8 agrees with Go's byte-wise check). -/
def hasPrefixGo (s pre : String) : Bool := pre.data.isPrefixOf s.data

/-- The `for _, id := range storyIDs` loop of `fetchStories`: fetch each
item, `continue` on a fetch error, `continue` when the `show` / `ask`
title-prefix guard rejects the item, otherwise append the built Story.
Appending inside the left-to-right loop is producing the results in
listing order, which this recursion does by consing at the head. -/
def buildStories (up : Upstream) (storyType : String) : List Int → List Story
  | [] => []
  | i :: rest =>
    match up.item i with
    | .error _ => buildStories up storyType rest
    | .ok item =>
      if storyType = "show" ∧ hasPrefixGo item.title "Show HN:" = false then
        buildStories up storyType rest
      else if storyType = "ask" ∧ hasPrefixGo item.title "Ask HN:" = false then
        buildStories up storyType rest
      else
        mkStory storyType item :: buildStories up storyType rest

/-- Result of one `fetchStories` call, instrumented with the number of
upstream listing calls and item calls performed (the Go code performs
one `http.Get` per retained id, whatever the decode outcome). -/
structure FetchResult where
  result : Except String (List Story)
  cache : StoriesCache
  listingCalls : Nat
  itemCalls : Nat
deriving Repr

/-- `fetchStories` from `main.go`, threading the cache state explicitly:
cache check, type validation, listing fetch, truncation to `maxStories`,
the item loop, cache update. -/
def fetchStories (up : Upstream) (now : Int) (sc : StoriesCache)
    (storyType : String) : FetchResult :=
  let cached := cacheGet now sc storyType
  if cached.2 then ⟨.ok cached.1, sc, 0, 0⟩
  else
    match endpointFor storyType with
    | none => ⟨.error ("invalid story type: " ++ storyType), sc, 0, 0⟩
    | some endpoint =>
      match up.listing endpoint with
      | .error e => ⟨.error e, sc, 1, 0⟩
      | .ok storyIDs =>
        let retained :=
          if storyIDs.length > maxStories then storyIDs.take maxStories
          else storyIDs
        let stories := buildStories up storyType retained
        ⟨.ok stories, cacheSet now sc storyType stories, 1, retained.length⟩

/-! ### Concrete values used to exercise the definitions -/

/-- The initial cache of `main.go` (`var cache = &StoriesCache{...}`):
both maps empty. -/
def emptyCache : StoriesCache := ⟨[], []⟩

/-- A sample upstream item whose title carries the Show HN prefix. -/
def itemA : HNItem :=
  ⟨1, "story", "alice", 100, "Show HN: Thing", "https://a.example", 7, 3⟩

/-- A sample upstream item with an ordinary title. -/
def itemB : HNItem :=
  ⟨3, "story", "bob", 200, "Ordinary title", "https://b.example", 5, 0⟩

/-- A sample healthy upstream: listings with three ids, of which id 2
always fails to fetch. -/
def upEx : Upstream :=
  { listing := fun ep =>
      if ep = "topstories" then .ok [1, 2, 3]
      else if ep = "showstories" then .ok [1, 2, 3]
      else if ep = "askstories" then .ok [2]
      else .error "no such endpoint",
    item := fun i =>
      if i = 1 then .ok itemA
      else if i = 3 then .ok itemB
      else .error "item fetch failed" }

/-- A sample upstream whose every request fails at transport level. -/
def upDown : Upstream :=
  { listing := fun _ => .error "connection refused",
    item := fun _ => .error "connection refused" }

/-- A sample cached story list. -/
def demoStories : List Story := [mkStory "top" itemA]

/-- A sample upstream whose listings carry 40 ids, each of which
fetches successfully. -/
def upMany : Upstream :=
  { listing := fun _ => .ok ((List.range 40).map fun n => (n : Int)),
    item := fun i =>
      .ok { id := i, type := "story", By := "carol", time := 0,
            title := "Yet another link", url := "https://c.example",
            score := 1, descendants := 0 } }

/-- Cache well-formedness: the `stories` and `lastUpdate` maps bind
exactly the same keys, and every bound key is a valid story type. -/
def cacheWF (sc : StoriesCache) : Prop :=
  sc.stories.map Prod.fst = sc.lastUpdate.map Prod.fst ∧
  ∀ k ∈ sc.stories.map Prod.fst, k = "top" ∨ k = "show" ∨ k = "ask"

/-- Cache states reachable in the program. The cache starts empty;
`get` never mutates it, and the only call site of `set` in `main.go` is
the cache-update line of `fetchStories`, so the state transitions are
exactly the `fetchStories` calls — with arbitrary story type argument,
upstream behaviour, and call time. -/
inductive Reach : StoriesCache → Prop where
  | init : Reach emptyCache
  | step (up : Upstream) (t : Int) (T : String) (sc : StoriesCache) :
      Reach sc → Reach (fetchStories up t sc T).cache

/-! ### Basic association-list and cache lemmas -/

theorem lookupAL_updAL_self {α : Type} (l : List (String × α)) (k : String)
    (v : α) : lookupAL (updAL l k v) k = some v := by
  induction l with
  | nil => simp [updAL, lookupAL]
  | cons h t ih =>
    obtain ⟨k', v'⟩ := h
    by_cases hk : k' = k <;> simp [updAL, lookupAL, hk, ih]

theorem cacheGet_cacheSet_self (t0 t : Int) (sc : StoriesCache)
    (key : String) (s : List Story) :
    cacheGet t (cacheSet t0 sc key s) key =
      if t - t0 > cacheExpiration then ([], false) else (s, true) := by
  simp [cacheGet, cacheSet, lookupAL_updAL_self]

theorem trunc_eq_take (l : List Int) :
    (if l.length > maxStories then l.take maxStories else l) =
      l.take maxStories := by
  split
  · rfl
  · rw [List.take_of_length_le (by omega)]

theorem endpointFor_eq_some {T ep : String} (h : endpointFor T = some ep) :
    T = "top" ∨ T = "show" ∨ T = "ask" := by
  unfold endpointFor at h
  split at h
  · left; assumption
  · split at h
    · right; left; assumption
    · split at h
      · right; right; assumption
      · exact absurd h (by simp)

theorem endpointFor_eq_none {T : String} (h1 : T ≠ "top") (h2 : T ≠ "show")
    (h3 : T ≠ "ask") : endpointFor T = none := by
  simp [endpointFor, h1, h2, h3]

theorem fetchStories_hit {now : Int} {sc : StoriesCache} {T : String}
    (up : Upstream) (h : (cacheGet now sc T).2 = true) :
    fetchStories up now sc T = ⟨.ok (cacheGet now sc T).1, sc, 0, 0⟩ := by
  simp [fetchStories, h]

theorem fetchStories_invalid {now : Int} {sc : StoriesCache} {T : String}
    (up : Upstream) (hc : (cacheGet now sc T).2 = false)
    (he : endpointFor T = none) :
    fetchStories up now sc T =
      ⟨.error ("invalid story type: " ++ T), sc, 0, 0⟩ := by
  simp [fetchStories, hc, he]

theorem fetchStories_listing_error {now : Int} {sc : StoriesCache}
    {T ep e : String} (up : Upstream) (hc : (cacheGet now sc T).2 = false)
    (he : endpointFor T = some ep) (hl : up.listing ep = .error e) :
    fetchStories up now sc T = ⟨.error e, sc, 1, 0⟩ := by
  simp [fetchStories, hc, he, hl]

theorem fetchStories_listing_ok {now : Int} {sc : StoriesCache}
    {T ep : String} {ids : List Int} (up : Upstream)
    (hc : (cacheGet now sc T).2 = false) (he : endpointFor T = some ep)
    (hl : up.listing ep = .ok ids) :
    fetchStories up now sc T =
      ⟨.ok (buildStories up T (ids.take maxStories)),
        cacheSet now sc T (buildStories up T (ids.take maxStories)), 1,
        (ids.take maxStories).length⟩ := by
  simp [fetchStories, hc, he, hl, trunc_eq_take]

/-! ### Claim C2: cache TTL semantics -/

/-- Claim C2: after `set(key, s)` stamps time `t0`, a `get(key)` at time
`t` returns `(s, true)` exactly when `t - t0 ≤ 5` minutes; otherwise,
and whenever no entry exists for `key`, `get` returns `(empty, false)`. -/
theorem cacheSet_cacheGet_ttl (sc : StoriesCache) (key : String)
    (s : List Story) (t0 t : Int) :
    (cacheGet t (cacheSet t0 sc key s) key = (s, true) ↔
      t - t0 ≤ cacheExpiration) ∧
    (cacheGet t (cacheSet t0 sc key s) key = (s, true) ∨
      cacheGet t (cacheSet t0 sc key s) key = ([], false)) ∧
    (lookupAL sc.lastUpdate key = none → cacheGet t sc key = ([], false)) := by
  refine ⟨?_, ?_, ?_⟩
  · rw [cacheGet_cacheSet_self]
    rcases lt_or_le cacheExpiration (t - t0) with h | h
    · rw [if_pos h]
      constructor
      · intro hEq; simp at hEq
      · intro hle; exact absurd hle (not_le.mpr h)
    · rw [if_neg (not_lt.mpr h)]
      simp [h]
  · rw [cacheGet_cacheSet_self]
    split
    · right; rfl
    · left; rfl
  · intro h
    simp [cacheGet, h]

/-- Witness for C2: a get 5 minutes after the set is still a hit with
the stored list, a get one nanosecond later misses, and a get on the
empty cache misses. -/
theorem cacheSet_cacheGet_ttl_witness :
    cacheGet 300000000000 (cacheSet 0 emptyCache "top" demoStories) "top" =
      (demoStories, true) ∧
    cacheGet 300000000001 (cacheSet 0 emptyCache "top" demoStories) "top" =
      ([], false) ∧
    cacheGet 0 emptyCache "show" = ([], false) := by
  refine ⟨(cacheSet_cacheGet_ttl emptyCache "top" demoStories 0
      300000000000).1.mpr (by decide), ?_, ?_⟩
  · rcases (cacheSet_cacheGet_ttl emptyCache "top" demoStories 0
        300000000001).2.1 with h | h
    · exact absurd ((cacheSet_cacheGet_ttl emptyCache "top" demoStories 0
        300000000001).1.mp h) (by decide)
    · exact h
  · exact (cacheSet_cacheGet_ttl emptyCache "show" demoStories 0 0).2.2 rfl

/-! ### Claim C4: invalid story type -/

/-- Claim C4: for any value outside the enumeration, with no fresh cache
entry for it, `fetchStories` fails with the error
`invalid story type: value`, performs zero upstream calls, and leaves
the cache untouched. -/
theorem fetchStories_invalid_type (up : Upstream) (t : Int)
    (sc : StoriesCache) (T : String) (h1 : T ≠ "top") (h2 : T ≠ "show")
    (h3 : T ≠ "ask") (hc : (cacheGet t sc T).2 = false) :
    fetchStories up t sc T =
      ⟨.error ("invalid story type: " ++ T), sc, 0, 0⟩ :=
  fetchStories_invalid up hc (endpointFor_eq_none h1 h2 h3)

/-- Witness for C4: the literal input `invalid` on the empty cache. -/
theorem fetchStories_invalid_type_witness :
    fetchStories upEx 0 emptyCache "invalid" =
      ⟨.error "invalid story type: invalid", emptyCache, 0, 0⟩ :=
  fetchStories_invalid_type upEx 0 emptyCache "invalid" (by decide)
    (by decide) (by decide) rfl

/-! ### Claim C1: second call is served from the cache -/

/-- Claim C1: for a valid story type, after a cold `fetchStories` call
succeeds with sequence `s`, a second call within the TTL returns the
identical sequence, performs zero upstream requests, and does not write
the cache. -/
theorem fetchStories_second_call_cached (up : Upstream) (t t' : Int)
    (sc : StoriesCache) (T : String) (s : List Story)
    (hT : T = "top" ∨ T = "show" ∨ T = "ask")
    (hcold : (cacheGet t sc T).2 = false)
    (hok : (fetchStories up t sc T).result = .ok s)
    (hfresh : t' - t ≤ cacheExpiration) :
    fetchStories up t' (fetchStories up t sc T).cache T =
      ⟨.ok s, (fetchStories up t sc T).cache, 0, 0⟩ := by
  have he : ∃ ep, endpointFor T = some ep := by
    rcases hT with h | h | h <;> subst h <;> exact ⟨_, rfl⟩
  obtain ⟨ep, he⟩ := he
  cases hl : up.listing ep with
  | error e =>
    rw [fetchStories_listing_error up hcold he hl] at hok
    exact absurd hok (by simp)
  | ok ids =>
    have heq := fetchStories_listing_ok up hcold he hl
    rw [heq] at hok
    have hs : buildStories up T (ids.take maxStories) = s := by
      simpa using hok
    rw [heq]
    show fetchStories up t'
        (cacheSet t sc T (buildStories up T (ids.take maxStories))) T =
      ⟨.ok s, cacheSet t sc T (buildStories up T (ids.take maxStories)),
        0, 0⟩
    have hget : cacheGet t'
        (cacheSet t sc T (buildStories up T (ids.take maxStories))) T =
        (buildStories up T (ids.take maxStories), true) := by
      rw [cacheGet_cacheSet_self, if_neg (not_lt.mpr hfresh)]
    rw [fetchStories_hit up (by rw [hget]), hget, hs]

/-- Witness for C1: a cold top call against the sample upstream followed
by a call one minute later. -/
theorem fetchStories_second_call_cached_witness :
    fetchStories upEx 60 (fetchStories upEx 0 emptyCache "top").cache
        "top" =
      ⟨.ok [mkStory "top" itemA, mkStory "top" itemB],
        (fetchStories upEx 0 emptyCache "top").cache, 0, 0⟩ :=
  fetchStories_second_call_cached upEx 0 60 emptyCache "top"
    [mkStory "top" itemA, mkStory "top" itemB] (Or.inl rfl) rfl rfl
    (by decide)

/-! ### Claim C3: the cache is written exactly on listing success -/

/-- Claim C3: on a cold call for a valid type, a listing failure is
returned verbatim with the cache untouched, while a listing success
stores the built sequence (even when empty) under the story type and
returns it. -/
theorem fetchStories_cache_write (up : Upstream) (t : Int)
    (sc : StoriesCache) (T ep : String)
    (hc : (cacheGet t sc T).2 = false) (he : endpointFor T = some ep) :
    match up.listing ep with
    | .error e => fetchStories up t sc T = ⟨.error e, sc, 1, 0⟩
    | .ok ids =>
        fetchStories up t sc T =
          ⟨.ok (buildStories up T (ids.take maxStories)),
            cacheSet t sc T (buildStories up T (ids.take maxStories)), 1,
            (ids.take maxStories).length⟩ := by
  cases hl : up.listing ep with
  | error e => exact fetchStories_listing_error up hc he hl
  | ok ids => exact fetchStories_listing_ok up hc he hl

/-- Witness for C3: a dead upstream leaves the cache untouched and
surfaces the transport error; a listing whose single item fails to
fetch stores the empty sequence. -/
theorem fetchStories_cache_write_witness :
    fetchStories upDown 0 emptyCache "top" =
      ⟨.error "connection refused", emptyCache, 1, 0⟩ ∧
    fetchStories upEx 0 emptyCache "ask" =
      ⟨.ok [], cacheSet 0 emptyCache "ask" [], 1, 1⟩ :=
  ⟨fetchStories_cache_write upDown 0 emptyCache "top" "topstories" rfl rfl,
   fetchStories_cache_write upEx 0 emptyCache "ask" "askstories" rfl rfl⟩

/-! ### Structure of the item loop -/

theorem buildStories_sublist (up : Upstream) (T : String) (l : List Int) :
    List.Sublist (buildStories up T l)
      (l.filterMap fun i => (up.item i).toOption.map (mkStory T)) := by
  induction l with
  | nil => simp [buildStories]
  | cons i rest ih =>
    rw [List.filterMap_cons]
    cases hi : up.item i with
    | error e =>
      simp only [buildStories, hi, Except.toOption]
      exact ih
    | ok item =>
      simp only [buildStories, hi, Except.toOption, Option.map_some]
      split
      · exact ih.cons _
      · split
        · exact ih.cons _
        · exact ih.cons₂ _

theorem buildStories_length_le (up : Upstream) (T : String) (l : List Int) :
    (buildStories up T l).length ≤ l.length :=
  le_trans (buildStories_sublist up T l).length_le
    (List.length_filterMap_le _ _)

theorem buildStories_length_lt (up : Upstream) (T : String) {i : Int}
    {e : String} (he : up.item i = .error e) :
    ∀ l : List Int, i ∈ l → (buildStories up T l).length < l.length := by
  intro l
  induction l with
  | nil => intro h; cases h
  | cons j rest ih =>
    intro hmem
    by_cases hij : j = i
    · subst hij
      simp only [buildStories, he, List.length_cons]
      exact Nat.lt_succ_of_le (buildStories_length_le up T rest)
    · have hmem' : i ∈ rest := by
        rcases List.mem_cons.mp hmem with h | h
        · exact absurd h.symm hij
        · exact h
      cases hj : up.item j with
      | error e' =>
        simp only [buildStories, hj, List.length_cons]
        exact Nat.lt_succ_of_lt (ih hmem')
      | ok item =>
        simp only [buildStories, hj, List.length_cons]
        split
        · exact Nat.lt_succ_of_lt (ih hmem')
        · split
          · exact Nat.lt_succ_of_lt (ih hmem')
          · simpa using Nat.succ_lt_succ (ih hmem')

theorem buildStories_unfiltered (up : Upstream) {T : String}
    (hs : T ≠ "show") (ha : T ≠ "ask") (l : List Int) :
    buildStories up T l =
      l.filterMap fun i => (up.item i).toOption.map (mkStory T) := by
  induction l with
  | nil => rfl
  | cons i rest ih =>
    rw [List.filterMap_cons]
    cases hi : up.item i with
    | error e =>
      simp only [buildStories, hi, Except.toOption]
      exact ih
    | ok item =>
      simp only [buildStories, hi]
      rw [if_neg (fun h => hs h.1), if_neg (fun h => ha h.1), ih]
      rfl

theorem buildStories_all_show (up : Upstream) (l : List Int) :
    (buildStories up "show" l).all
      (fun st => hasPrefixGo st.title "Show HN:" && st.type == "show") =
      true := by
  induction l with
  | nil => rfl
  | cons i rest ih =>
    cases hi : up.item i with
    | error e => simpa only [buildStories, hi] using ih
    | ok item =>
      simp only [buildStories, hi]
      split
      · exact ih
      · split
        · exact ih
        · rename_i h1 h2
          have hpre : hasPrefixGo item.title "Show HN:" = true := by
            cases h : hasPrefixGo item.title "Show HN:"
            · exact absurd ⟨trivial, h⟩ h1
            · rfl
          simp [List.all_cons, mkStory, hpre, ih]

theorem buildStories_all_ask (up : Upstream) (l : List Int) :
    (buildStories up "ask" l).all
      (fun st => hasPrefixGo st.title "Ask HN:" && st.type == "ask") =
      true := by
  induction l with
  | nil => rfl
  | cons i rest ih =>
    cases hi : up.item i with
    | error e => simpa only [buildStories, hi] using ih
    | ok item =>
      simp only [buildStories, hi]
      split
      · exact ih
      · split
        · exact ih
        · rename_i h1 h2
          have hpre : hasPrefixGo item.title "Ask HN:" = true := by
            cases h : hasPrefixGo item.title "Ask HN:"
            · exact absurd ⟨trivial, h⟩ h2
            · rfl
          simp [List.all_cons, mkStory, hpre, ih]

/-! ### Claim C5: type-specific filtering -/

/-- Claim C5: on cold calls, every Story in a successful `show` result
has a title starting with the literal prefix Show HN: and type `show`,
every Story in an `ask` result has a title starting with Ask HN: and
type `ask`, and a `top` result keeps every successfully fetched item
unfiltered. -/
theorem fetchStories_filter_by_type (up : Upstream) (t : Int)
    (sc : StoriesCache)
    (hshow : (cacheGet t sc "show").2 = false)
    (hask : (cacheGet t sc "ask").2 = false)
    (htop : (cacheGet t sc "top").2 = false) :
    (match (fetchStories up t sc "show").result with
     | .ok s => s.all
        (fun st => hasPrefixGo st.title "Show HN:" && st.type == "show") =
        true
     | .error _ => True) ∧
    (match (fetchStories up t sc "ask").result with
     | .ok s => s.all
        (fun st => hasPrefixGo st.title "Ask HN:" && st.type == "ask") =
        true
     | .error _ => True) ∧
    (match up.listing "topstories" with
     | .ok ids =>
        (fetchStories up t sc "top").result =
          .ok ((ids.take maxStories).filterMap fun i =>
            (up.item i).toOption.map (mkStory "top"))
     | .error _ => True) := by
  refine ⟨?_, ?_, ?_⟩
  · cases hl : up.listing "showstories" with
    | error e => rw [fetchStories_listing_error up hshow rfl hl]; exact trivial
    | ok ids =>
      rw [fetchStories_listing_ok up hshow rfl hl]
      exact buildStories_all_show up _
  · cases hl : up.listing "askstories" with
    | error e => rw [fetchStories_listing_error up hask rfl hl]; exact trivial
    | ok ids =>
      rw [fetchStories_listing_ok up hask rfl hl]
      exact buildStories_all_ask up _
  · cases hl : up.listing "topstories" with
    | error e => exact trivial
    | ok ids =>
      show (fetchStories up t sc "top").result = _
      rw [fetchStories_listing_ok up htop rfl hl]
      rw [buildStories_unfiltered up (by decide) (by decide)]

/-- Witness for C5: against the sample upstream, the show result keeps
exactly the prefixed item, the ask result is empty, and the top result
is the unfiltered pair of fetchable items. -/
theorem fetchStories_filter_by_type_witness :
    ([mkStory "show" itemA].all
      (fun st => hasPrefixGo st.title "Show HN:" && st.type == "show")) =
      true ∧
    (fetchStories upEx 0 emptyCache "top").result =
      .ok [mkStory "top" itemA, mkStory "top" itemB] := by
  obtain ⟨h1, h2, h3⟩ :=
    fetchStories_filter_by_type upEx 0 emptyCache rfl rfl rfl
  have hres : (fetchStories upEx 0 emptyCache "show").result =
      .ok [mkStory "show" itemA] := rfl
  rw [hres] at h1
  have hlist : upEx.listing "topstories" = .ok [1, 2, 3] := rfl
  rw [hlist] at h3
  exact ⟨h1, h3⟩

/-! ### Claim C6: truncation and ordering -/

/-- Claim C6: on a cold call for a valid type whose listing succeeds,
the id list is truncated to its first `maxStories` ids in upstream
order, the returned sequence has at most `maxStories` entries, and it
is an order-preserving subsequence of the per-id fetch results over the
truncated listing (no re-sorting). -/
theorem fetchStories_truncation_order (up : Upstream) (t : Int)
    (sc : StoriesCache) (T ep : String) (ids : List Int)
    (hc : (cacheGet t sc T).2 = false) (he : endpointFor T = some ep)
    (hl : up.listing ep = .ok ids) :
    fetchStories up t sc T =
      ⟨.ok (buildStories up T (ids.take maxStories)),
        cacheSet t sc T (buildStories up T (ids.take maxStories)), 1,
        (ids.take maxStories).length⟩ ∧
    (buildStories up T (ids.take maxStories)).length ≤ maxStories ∧
    List.Sublist (buildStories up T (ids.take maxStories))
      ((ids.take maxStories).filterMap fun i =>
        (up.item i).toOption.map (mkStory T)) := by
  refine ⟨fetchStories_listing_ok up hc he hl, ?_,
    buildStories_sublist up T _⟩
  calc (buildStories up T (ids.take maxStories)).length
      ≤ (ids.take maxStories).length := buildStories_length_le up T _
    _ ≤ maxStories := by
        rw [List.length_take]
        exact min_le_left _ _

/-- Witness for C6: a 40-id listing produces at most 30 stories. -/
theorem fetchStories_truncation_order_witness :
    (buildStories upMany "top"
      (((List.range 40).map fun n => (n : Int)).take maxStories)).length ≤
      maxStories :=
  (fetchStories_truncation_order upMany 0 emptyCache "top" "topstories"
    ((List.range 40).map fun n => (n : Int)) rfl rfl rfl).2.1

/-! ### Claim C7: per-item failures are non-fatal -/

/-- Claim C7: when the listing succeeds on a cold call for a valid type
and one retained id fails to fetch, the call still succeeds and the
returned sequence has at most `N - 1` entries for `N` retained ids. -/
theorem fetchStories_item_failure_nonfatal (up : Upstream) (t : Int)
    (sc : StoriesCache) (T ep : String) (ids : List Int) (i : Int)
    (e : String) (hc : (cacheGet t sc T).2 = false)
    (he : endpointFor T = some ep) (hl : up.listing ep = .ok ids)
    (hi : i ∈ ids.take maxStories) (herr : up.item i = .error e) :
    (fetchStories up t sc T).result =
      .ok (buildStories up T (ids.take maxStories)) ∧
    (buildStories up T (ids.take maxStories)).length + 1 ≤
      (ids.take maxStories).length := by
  refine ⟨by rw [fetchStories_listing_ok up hc he hl], ?_⟩
  exact buildStories_length_lt up T herr _ hi

/-- Witness for C7: id 2 of the sample top listing fails to fetch, so
the call returns the other two stories and no error. -/
theorem fetchStories_item_failure_nonfatal_witness :
    (fetchStories upEx 0 emptyCache "top").result =
      .ok [mkStory "top" itemA, mkStory "top" itemB] ∧ 2 + 1 ≤ 3 :=
  fetchStories_item_failure_nonfatal upEx 0 emptyCache "top" "topstories"
    [1, 2, 3] 2 "item fetch failed" rfl rfl rfl (by decide) rfl

/-! ### Claim C8: the item-to-Story transformation -/

/-- Claim C8: the loop output equals fetching each id, dropping
failures, filtering by the type-specific title guard, and mapping each
retained item to the Story whose id, title, url come from the item,
points from its score, submitter from its author handle, creation time
from its unix-seconds time, comments URL derived from the item id, and
type equal to the requested story type (not the item's own type). -/
theorem buildStories_transform (up : Upstream) (T : String)
    (l : List Int) :
    buildStories up T l =
      (((l.filterMap fun i => (up.item i).toOption).filter fun item =>
          if T = "show" ∧ hasPrefixGo item.title "Show HN:" = false then
            false
          else if T = "ask" ∧ hasPrefixGo item.title "Ask HN:" = false then
            false
          else true).map fun item =>
        ({ id := item.id, title := item.title, url := item.url,
           points := item.score, submittedBy := item.By,
           createdAt := item.time,
           commentsURL :=
             "https://news.ycombinator.com/item?id=" ++ toString item.id,
           type := T } : Story)) := by
  induction l with
  | nil => rfl
  | cons i rest ih =>
    cases hi : up.item i with
    | error e =>
      have hred : List.filterMap (fun j => (up.item j).toOption)
          (i :: rest) =
          List.filterMap (fun j => (up.item j).toOption) rest := by
        rw [List.filterMap_cons, hi]; rfl
      simp only [buildStories, hi]
      rw [hred]
      exact ih
    | ok item =>
      have hred : List.filterMap (fun j => (up.item j).toOption)
          (i :: rest) =
          item :: List.filterMap (fun j => (up.item j).toOption) rest := by
        rw [List.filterMap_cons, hi]; rfl
      simp only [buildStories, hi]
      rw [hred]
      simp only [List.filter_cons]
      by_cases h1 : T = "show" ∧ hasPrefixGo item.title "Show HN:" = false
      · rw [if_pos h1, if_neg (by rw [if_pos h1]; simp)]
        exact ih
      · by_cases h2 : T = "ask" ∧ hasPrefixGo item.title "Ask HN:" = false
        · rw [if_neg h1, if_pos h2,
            if_neg (by rw [if_neg h1, if_pos h2]; simp)]
          exact ih
        · rw [if_neg h1, if_neg h2,
            if_pos (by rw [if_neg h1, if_neg h2]),
            List.map_cons, ih]
          rfl

/-! ### Claim C10: the reachable-cache invariant -/

theorem updAL_map_fst_congr {α β : Type} (k : String) (v : α) (w : β) :
    ∀ (l1 : List (String × α)) (l2 : List (String × β)),
      l1.map Prod.fst = l2.map Prod.fst →
      (updAL l1 k v).map Prod.fst = (updAL l2 k w).map Prod.fst := by
  intro l1
  induction l1 with
  | nil =>
    intro l2 h
    cases l2 with
    | nil => rfl
    | cons b t => simp at h
  | cons a t1 ih =>
    intro l2 h
    cases l2 with
    | nil => simp at h
    | cons b t2 =>
      obtain ⟨a1, a2⟩ := a
      obtain ⟨b1, b2⟩ := b
      simp only [List.map_cons, List.cons.injEq] at h
      obtain ⟨hab, ht⟩ := h
      subst hab
      by_cases hk : a1 = k
      · simp [updAL, hk, List.map_cons, ht]
      · simp [updAL, hk, List.map_cons, ih t2 ht]

theorem mem_map_fst_updAL {α : Type} (l : List (String × α))
    (k k' : String) (v : α) :
    k' ∈ (updAL l k v).map Prod.fst ↔ k' ∈ l.map Prod.fst ∨ k' = k := by
  induction l with
  | nil => simp [updAL]
  | cons a t ih =>
    obtain ⟨a1, a2⟩ := a
    by_cases hk : a1 = k
    · subst hk
      simp [updAL, List.map_cons]
      tauto
    · simp [updAL, hk, List.map_cons, ih]
      tauto

theorem lookupAL_isSome_iff {α : Type} (l : List (String × α))
    (k : String) :
    (lookupAL l k).isSome = true ↔ k ∈ l.map Prod.fst := by
  induction l with
  | nil => simp [lookupAL]
  | cons a t ih =>
    obtain ⟨a1, a2⟩ := a
    by_cases hk : a1 = k
    · subst hk; simp [lookupAL]
    · simp only [lookupAL, if_neg hk, List.map_cons, List.mem_cons, ih]
      constructor
      · intro h; right; exact h
      · intro h
        rcases h with h | h
        · exact absurd h.symm hk
        · exact h

theorem fetchStories_cache_eq (up : Upstream) (t : Int)
    (sc : StoriesCache) (T : String) :
    (fetchStories up t sc T).cache = sc ∨
    ((T = "top" ∨ T = "show" ∨ T = "ask") ∧
      ∃ s, (fetchStories up t sc T).cache = cacheSet t sc T s) := by
  cases hc : (cacheGet t sc T).2 with
  | true => rw [fetchStories_hit up hc]; left; rfl
  | false =>
    cases he : endpointFor T with
    | none => rw [fetchStories_invalid up hc he]; left; rfl
    | some ep =>
      cases hl : up.listing ep with
      | error e => rw [fetchStories_listing_error up hc he hl]; left; rfl
      | ok ids =>
        rw [fetchStories_listing_ok up hc he hl]
        right
        exact ⟨endpointFor_eq_some he, _, rfl⟩

theorem cacheWF_cacheSet (sc : StoriesCache) (h : cacheWF sc)
    (T : String) (hT : T = "top" ∨ T = "show" ∨ T = "ask") (t : Int)
    (s : List Story) : cacheWF (cacheSet t sc T s) := by
  obtain ⟨h1, h2⟩ := h
  constructor
  · exact updAL_map_fst_congr T s t sc.stories sc.lastUpdate h1
  · intro k hk
    rcases (mem_map_fst_updAL sc.stories T k s).mp hk with hmem | hmem
    · exact h2 k hmem
    · subst hmem; exact hT

theorem cacheWF_reach (sc : StoriesCache) (h : Reach sc) : cacheWF sc := by
  induction h with
  | init =>
    refine ⟨rfl, ?_⟩
    intro k hk
    simp [emptyCache] at hk
  | step up t T sc0 hr ih =>
    rcases fetchStories_cache_eq up t sc0 T with heq | ⟨hT, s, heq⟩
    · rw [heq]; exact ih
    · rw [heq]; exact cacheWF_cacheSet sc0 ih T hT t s

/-- Claim C10: in every cache state reachable from the initial empty
cache through the program's operations, the stories map and the
last-update map bind exactly the same keys, every key is a valid story
type, a last-update stamp never exists without its stories entry, and
a cache hit can only happen for a valid story type. -/
theorem cache_reachable_invariant (sc : StoriesCache) (h : Reach sc) :
    cacheWF sc ∧
    (∀ k : String, (lookupAL sc.lastUpdate k).isSome = true →
      (lookupAL sc.stories k).isSome = true) ∧
    (∀ (t : Int) (k : String), (cacheGet t sc k).2 = true →
      k = "top" ∨ k = "show" ∨ k = "ask") := by
  have hwf := cacheWF_reach sc h
  refine ⟨hwf, ?_, ?_⟩
  · intro k hl
    rw [lookupAL_isSome_iff] at hl ⊢
    rw [hwf.1]
    exact hl
  · intro t k hg
    cases hlu : lookupAL sc.lastUpdate k with
    | none =>
      unfold cacheGet at hg
      rw [hlu] at hg
      simp at hg
    | some u =>
      have hmem : k ∈ sc.lastUpdate.map Prod.fst := by
        rw [← lookupAL_isSome_iff, hlu]
        rfl
      have hk : k ∈ sc.stories.map Prod.fst := by
        rw [hwf.1]
        exact hmem
      exact hwf.2 k hk

/-- Witness for C10: after one successful show fetch against the sample
upstream, the reached cache binds the stories entry for `show`. -/
theorem cache_reachable_invariant_witness :
    (lookupAL (fetchStories upEx 0 emptyCache "show").cache.stories
      "show").isSome = true :=
  (cache_reachable_invariant (fetchStories upEx 0 emptyCache "show").cache
    (Reach.step upEx 0 "show" emptyCache Reach.init)).2.1 "show" (by decide)
